import Mathlib

/-!
Verification of the Bengaluru GIS preprocessing pipeline
(`scripts/preprocess_data.py`) against its specification.

The pipeline is shallowly embedded: pandas/geopandas tables become Lean
lists and records, geometric predicates become decidable functions on a
concrete geometry model (rational points, axis-aligned rectangular
polygons, with `within` meaning strict interior containment, matching
the geopandas `within` predicate on this class of geometries), raster
masking becomes an `Option`-valued cell extraction (with `none` for a
masking exception), and fallible loading becomes `Except`.
-/

namespace Bengaluru

/-- A geometric point with rational coordinates (a concrete model of a
shapely `Point`). -/
structure Pt where
  x : ℚ
  y : ℚ
deriving DecidableEq, Repr

/-- An axis-aligned rectangle, the concrete polygon model used for ward
geometries.  The rectangle is the set of points with
`x0 ≤ x ≤ x1` and `y0 ≤ y ≤ y1`; its interior is the strict version. -/
structure Rect where
  x0 : ℚ
  y0 : ℚ
  x1 : ℚ
  y1 : ℚ
deriving DecidableEq, Repr

/-- The geopandas `within` predicate on this geometry class: the point
lies in the interior of the rectangle.  A boundary-touching point
(`p.x = r.x0`, say) is not `within`. -/
def within (p : Pt) (r : Rect) : Bool :=
  (r.x0 < p.x) && (p.x < r.x1) && (r.y0 < p.y) && (p.y < r.y1)

/-- A point lies on the boundary of a rectangle if it belongs to the
closed rectangle but not to its interior. -/
def onBoundary (p : Pt) (r : Rect) : Bool :=
  (r.x0 ≤ p.x) && (p.x ≤ r.x1) && (r.y0 ≤ p.y) && (p.y ≤ r.y1) && !(within p r)

/-!
## 1) Boundary Normalizer (`preprocess_data.py` lines 47–62)

```python
wards = gpd.read_file(WARDS_RAW)
wards = wards.to_crs(epsg=4326)
if "KGISWardNo" in wards.columns:
    wards["ward_id"] = wards["KGISWardNo"].astype(int)
else:
    wards["ward_id"] = wards.index + 1
if "KGISWardName" in wards.columns:
    wards["ward_name"] = wards["KGISWardName"]
else:
    wards["ward_name"] = "Ward " + wards["ward_id"].astype(str)
```

A GeoDataFrame column either exists for the whole file or not at all, so
the raw layer carries each optional column as `Option (List _)`.
`gpd.read_file` on an unreadable file raises; this is modelled by the
loader receiving `none` instead of a raw layer.
-/

/-- The raw ward boundary layer as read from `BBMP.geojson`: the two
optional source columns and the geometry column.  `crs` is the source
coordinate reference system tag. -/
structure WardLayer where
  crs : String
  wardNoCol : Option (List Int)
  wardNameCol : Option (List String)
  geoms : List Rect
deriving Repr

/-- A normalized ward record. -/
structure Ward where
  ward_id : Int
  ward_name : String
  geometry : Rect
deriving DecidableEq, Repr

/-- `wards["ward_id"]`: the `KGISWardNo` column cast to integer when the
column exists, else `wards.index + 1` (1-based row order). -/
def assignWardIds (layer : WardLayer) : List Int :=
  match layer.wardNoCol with
  | some col => col
  | none => (List.range layer.geoms.length).map (fun i => Int.ofNat i + 1)

/-- `wards["ward_name"]`: the `KGISWardName` column when it exists, else
the synthesized `"Ward " + ward_id`. -/
def assignWardNames (layer : WardLayer) : List String :=
  match layer.wardNameCol with
  | some col => col
  | none => (assignWardIds layer).map (fun i => "Ward " ++ toString i)

/-- The ward set produced by the Boundary Normalizer: ward ids and names
zipped with the geometries reprojected to EPSG:4326 by `to_crs`.
`reproj crs p` is the coordinate transformation from the source CRS into
WGS84, applied cornerwise to the rectangle model. -/
def normalizeWards (reproj : String → Pt → Pt) (layer : WardLayer) : List Ward :=
  let geoms := layer.geoms.map (fun r =>
    let a := reproj layer.crs ⟨r.x0, r.y0⟩
    let b := reproj layer.crs ⟨r.x1, r.y1⟩
    Rect.mk a.x a.y b.x b.y)
  List.zipWith (fun (idn : Int × String) g => Ward.mk idn.1 idn.2 g)
    (List.zip (assignWardIds layer) (assignWardNames layer)) geoms

/-- The ward-loading step.  `raw = none` models `gpd.read_file` raising
on an unreadable file; the script has no handler there, so the exception
propagates (modelled as `Except.error "LoadError"`).  Any readable layer
— including one with zero features — is normalized without error. -/
def loadWards (reproj : String → Pt → Pt) (raw : Option WardLayer) :
    Except String (List Ward) :=
  match raw with
  | none => .error "LoadError"
  | some layer => .ok (normalizeWards reproj layer)

/-!
## 2) Point-Layer Loader: trees (`preprocess_data.py` lines 68–91)

```python
tree_layers = []
for tf in TREE_FILES:
    if tf.exists():
        try:
            gdf = gpd.read_file(tf)
            gdf = gdf.to_crs(epsg=4326)
            if "TreeName" in gdf.columns:
                gdf["tree_type"] = gdf["TreeName"].astype(str).str.strip()
            elif "tree_type" in gdf.columns:
                gdf["tree_type"] = gdf["tree_type"].astype(str).str.strip()
            else:
                gdf["tree_type"] = "unknown"
            tree_layers.append(gdf)
        except Exception as e:
            print a warning, continue
if not tree_layers:
    raise FileNotFoundError("No valid tree files found")
trees = pd.concat(tree_layers, ignore_index=True)
```
-/

/-- A raw tree census layer.  Each optional column exists file-wide or
not at all; a cell value of `none` models a pandas missing value (NaN),
which `astype(str)` renders as the string `"nan"`. -/
structure TreeLayer where
  crs : String
  treeNameCol : Option (List (Option String))
  treeTypeCol : Option (List (Option String))
  geoms : List Pt
deriving DecidableEq, Repr

/-- One entry of the fixed `TREE_FILES` list.  `onDisk` models
`tf.exists()`; `content = none` models `gpd.read_file`/`to_crs` raising
inside the `try` block (the file exists but fails to parse). -/
structure TreeFile where
  onDisk : Bool
  content : Option TreeLayer
deriving DecidableEq, Repr

/-- A normalized tree feature. -/
structure Tree where
  tree_type : String
  geometry : Pt
deriving DecidableEq, Repr

/-- `astype(str)` on one cell: a missing value becomes the literal
string `"nan"`. -/
def cellToStr : Option String → String
  | some s => s
  | none => "nan"

/-- Leading- and trailing-whitespace removal on a character list. -/
def stripChars (cs : List Char) : List Char :=
  ((cs.dropWhile Char.isWhitespace).reverse.dropWhile Char.isWhitespace).reverse

/-- The pandas `.str.strip()` operation: surrounding whitespace removed. -/
def strip (s : String) : String := String.mk (stripChars s.data)

/-- The per-file `tree_type` normalization: if the `TreeName` column
exists, its values stringified and stripped; else if a `tree_type`
column exists, likewise; else the constant `"unknown"` for every row. -/
def normalizeTreeTypes (l : TreeLayer) : List String :=
  match l.treeNameCol with
  | some col => col.map (fun v => strip (cellToStr v))
  | none =>
    match l.treeTypeCol with
    | some col => col.map (fun v => strip (cellToStr v))
    | none => l.geoms.map (fun _ => "unknown")

/-- One successfully read tree layer after `to_crs(epsg=4326)` and
`tree_type` normalization: geometries reprojected from the source CRS
into WGS84, zipped with the normalized types. -/
def normalizeTreeLayer (reproj : String → Pt → Pt) (l : TreeLayer) : List Tree :=
  List.zipWith (fun ty g => Tree.mk ty (reproj l.crs g)) (normalizeTreeTypes l) l.geoms

/-- The `for tf in TREE_FILES` loop: files not on disk are skipped
silently, files that fail to parse are skipped with a printed warning,
each successful file is normalized and appended in order. -/
def loadTreeLayers (reproj : String → Pt → Pt) (files : List TreeFile) :
    List (List Tree) :=
  files.filterMap (fun f =>
    if f.onDisk then f.content.map (normalizeTreeLayer reproj) else none)

/-- The whole tree-loading stage: `FileNotFoundError` (the pipeline's
`LoadError`) exactly when `tree_layers` stayed empty, else the
`pd.concat` of the successful layers in file order. -/
def loadTrees (reproj : String → Pt → Pt) (files : List TreeFile) :
    Except String (List Tree) :=
  let layers := loadTreeLayers reproj files
  if layers.isEmpty then .error "LoadError" else .ok layers.flatten

/-!
## 3) Point-Layer Loader: schools (`preprocess_data.py` lines 98–100)

```python
schools = gpd.read_file(SCHOOLS_RAW)
schools = schools.to_crs(epsg=4326)
schools = schools[schools.geometry.type.isin(["Point", "MultiPoint"])].copy()
```
-/

/-- A raw school feature: its geometry type tag as reported by
`geometry.type` and a representative point location. -/
structure RawSchool where
  geomType : String
  geometry : Pt
deriving DecidableEq, Repr

/-- The school geometry-type filter: keep only `Point` and `MultiPoint`
features. -/
def filterSchools (ss : List RawSchool) : List RawSchool :=
  ss.filter (fun s => s.geomType = "Point" || s.geomType = "MultiPoint")

/-!
## 4) Zonal Statistics Engine (`preprocess_data.py` lines 134–148)

```python
avg_elevs = {}
with rasterio.open(dem_out) as src:
    nodata = src.nodata
    wards_dem = wards.to_crs(src.crs)
    for _, row in tqdm(wards_dem.iterrows(), total=len(wards_dem)):
        geom = [mapping(row.geometry)]
        try:
            out, _ = mask(src, geom, crop=True, nodata=nodata)
            band = out[0].astype("float64")
            if nodata is not None:
                band[band == nodata] = np.nan
            mean_val = float(np.nanmean(band))
            avg_elevs[row["ward_id"]] = None if np.isnan(mean_val) else mean_val
        except:
            avg_elevs[row["ward_id"]] = None
```

`mask(src, geom, crop=True, ...)` is modelled as its result: an
`Option (List ℚ)` giving the band's cell values, `none` when the call
raises (degenerate geometry, ward outside the raster extent).  Cell
values are rationals; the nodata sentinel is an optional rational.
-/

/-- The cells that survive nodata replacement: `band[band == nodata] =
np.nan` followed by `np.nanmean` means exactly the non-nodata cells
enter the mean (all cells when the raster has no nodata sentinel). -/
def validCells (nodata : Option ℚ) (band : List ℚ) : List ℚ :=
  match nodata with
  | some nd => band.filter (fun c => c ≠ nd)
  | none => band

/-- The per-ward body of the zonal-statistics loop: `none` for a raised
masking exception or an all-nodata/empty band (`np.nanmean` returns NaN
there and the script stores `None`), else the mean of the valid cells. -/
def avgElev (nodata : Option ℚ) (maskOut : Option (List ℚ)) : Option ℚ :=
  match maskOut with
  | none => none
  | some band =>
    let valid := validCells nodata band
    if valid.isEmpty then none else some (valid.sum / valid.length)

/-- The whole `avg_elevs` mapping: one entry per ward row, keyed by
`ward_id`, with `cells w` the masking result for ward `w`. -/
def avgElevs (nodata : Option ℚ) (cells : Ward → Option (List ℚ))
    (wards : List Ward) : List (Int × Option ℚ) :=
  wards.map (fun w => (w.ward_id, avgElev nodata (cells w)))

/-!
## 5) Spatial Join & Aggregator (`preprocess_data.py` lines 154–199)

```python
trees_with_ward = gpd.sjoin(trees, wards[["ward_id","ward_name","geometry"]],
                            how="left", predicate="within")
schools_with_ward = gpd.sjoin(schools, wards[["ward_id","ward_name","geometry"]],
                              how="left", predicate="within")
tree_counts = (trees_with_ward.dropna(subset=["ward_id"])
               .groupby(["ward_id","tree_type"]).size().reset_index(name="count"))
ward_tree_dict = {wid: dict(zip(g["tree_type"], g["count"]))
                  for wid, g in tree_counts.groupby("ward_id")}
school_counts = (schools_with_ward.dropna(subset=["ward_id"])
                 .groupby("ward_id").size().reset_index(name="school_count"))
school_count_dict = dict(zip(school_counts["ward_id"], school_counts["school_count"]))
```

`gpd.sjoin(..., how="left", predicate="within")` emits, for each left
row, one output row per ward whose geometry the point is within, and a
single row with a missing `ward_id` when no ward matches.  `groupby`
sorts group keys, but none of the verified properties depend on row
order, so groups are enumerated in first-occurrence order here.
-/

/-- The wards whose polygons a point is within, in ward-set order. -/
def matchingWards (wards : List Ward) (p : Pt) : List Int :=
  (wards.filter (fun w => within p w.geometry)).map (fun w => w.ward_id)

/-- `gpd.sjoin(left, wards, how="left", predicate="within")`, keeping of
each output row the left feature and the matched `ward_id` (`none` is
the NaN of an unmatched left row). -/
def sjoinWithin {α : Type} (geomOf : α → Pt) (rows : List α) (wards : List Ward) :
    List (α × Option Int) :=
  rows.flatMap (fun a =>
    match matchingWards wards (geomOf a) with
    | [] => [(a, none)]
    | ids => ids.map (fun i => (a, some i)))

/-- `dropna(subset=["ward_id"])`: the joined rows that matched a ward. -/
def assignedRows {α : Type} (joined : List (α × Option Int)) : List (α × Int) :=
  joined.filterMap (fun r => r.2.map (fun i => (r.1, i)))

/-- `groupby(keys).size().reset_index(name="count")`: one row per
distinct key with the number of its occurrences (keys in
first-occurrence order; pandas sorts them, which no verified property
observes). -/
def groupSizes {κ : Type} [DecidableEq κ] (keys : List κ) : List (κ × Nat) :=
  keys.dedup.map (fun k => (k, keys.count k))

/-- `tree_counts`: per (`ward_id`, `tree_type`) row counts over the
assigned tree rows. -/
def treeCounts (trees : List Tree) (wards : List Ward) : List ((Int × String) × Nat) :=
  groupSizes ((assignedRows (sjoinWithin Tree.geometry trees wards)).map
    (fun r => (r.2, r.1.tree_type)))

/-- `ward_tree_dict[wid]`: the `tree_type ↦ count` mapping of one ward,
as the sub-rows of `tree_counts` carrying that `ward_id`. -/
def wardTreeDict (tc : List ((Int × String) × Nat)) (wid : Int) : List (String × Nat) :=
  (tc.filter (fun r => r.1.1 = wid)).map (fun r => (r.1.2, r.2))

/-- `school_counts` / `school_count_dict`: per-`ward_id` counts over the
assigned school rows. -/
def schoolCounts (schools : List RawSchool) (wards : List Ward) : List (Int × Nat) :=
  groupSizes ((assignedRows (sjoinWithin RawSchool.geometry schools wards)).map
    (fun r => r.2))

/-!
## 6) Attach stats + export (`preprocess_data.py` lines 185–199)

```python
wards["num_schools"] = wards["ward_id"].map(school_count_dict).fillna(0).astype(int)
wards["avg_elev"] = wards["ward_id"].map(avg_elevs)
wards["tree_dist"] = wards["ward_id"].apply(lambda wid: json.dumps(ward_tree_dict.get(wid, {})))
wards_simpl = wards.copy()
wards_simpl["geometry"] = wards_simpl.geometry.simplify(SIMPLIFY_TOLERANCE, preserve_topology=True)
wards_simpl.to_file(OUT_DIR / "wards.geojson", driver="GeoJSON")
trees.to_file(OUT_DIR / "trees.geojson", driver="GeoJSON")
schools.to_file(OUT_DIR / "schools.geojson", driver="GeoJSON")
wards_simpl[["ward_id","ward_name","num_schools","avg_elev"]].to_csv(...)
tree_counts.to_csv(OUT_DIR / "ward_tree_counts.csv", index=False)
```
-/

/-- `map(school_count_dict).fillna(0).astype(int)` for one ward id:
the dict lookup, missing keys back-filled with `0`. -/
def numSchools (sc : List (Int × Nat)) (wid : Int) : Nat :=
  ((sc.find? (fun r => r.1 = wid)).map (fun r => r.2)).getD 0

/-- `wards["ward_id"].map(avg_elevs)` for one ward id: the first entry
of the elevation mapping with that key (`avg_elevs` is a dict written
once per ward row, so with unique ids the first entry is the entry). -/
def lookupElev (elevs : List (Int × Option ℚ)) (wid : Int) : Option ℚ :=
  ((elevs.find? (fun r => r.1 = wid)).map (fun r => r.2)).getD none

/-- A fully attributed output ward (one feature of `wards.geojson`,
with `tree_dist` kept as the mapping that the script JSON-serializes). -/
structure OutWard where
  ward_id : Int
  ward_name : String
  num_schools : Nat
  avg_elev : Option ℚ
  tree_dist : List (String × Nat)
  geometry : Rect
deriving DecidableEq, Repr

/-- Lines 185–187: attach `num_schools`, `avg_elev` and `tree_dist` to
every ward row, each keyed by that row's `ward_id`. -/
def attachStats (wards : List Ward) (sc : List (Int × Nat))
    (elevs : List (Int × Option ℚ)) (tc : List ((Int × String) × Nat)) :
    List OutWard :=
  wards.map (fun w =>
    OutWard.mk w.ward_id w.ward_name (numSchools sc w.ward_id)
      (lookupElev elevs w.ward_id) (wardTreeDict tc w.ward_id) w.geometry)

/-- Lines 190–191: `wards_simpl` is a copy of the attributed ward table
whose geometry column alone is rewritten by `simplify`. -/
def simplifyWards (simplify : Rect → Rect) (ws : List OutWard) : List OutWard :=
  ws.map (fun w => { w with geometry := simplify w.geometry })

/-- Everything the script writes to `data/processed/`, `dem_clipped.tif`
apart: the simplified ward layer, the untouched tree and school point
layers, the per-ward stats rows and the per-(ward, tree-type) rows. -/
structure Outputs where
  wardsGeojson : List OutWard
  treesGeojson : List Tree
  schoolsGeojson : List RawSchool
  wardStatsCsv : List (Int × String × Nat × Option ℚ)
  wardTreeCountsCsv : List ((Int × String) × Nat)
deriving Repr

/-- The pipeline from its normalized inputs (wards, trees, filtered
schools, per-ward mask results) to its exported artifacts, in script
order: spatial joins, aggregations, attribute attachment, then
simplification, then the writes. -/
def pipelineOutputs (simplify : Rect → Rect) (nodata : Option ℚ)
    (cells : Ward → Option (List ℚ)) (wards : List Ward) (trees : List Tree)
    (rawSchools : List RawSchool) : Outputs :=
  let schools := filterSchools rawSchools
  let elevs := avgElevs nodata cells wards
  let tc := treeCounts trees wards
  let sc := schoolCounts schools wards
  let attributed := attachStats wards sc elevs tc
  let wardsSimpl := simplifyWards simplify attributed
  Outputs.mk wardsSimpl trees schools
    (wardsSimpl.map (fun w => (w.ward_id, w.ward_name, w.num_schools, w.avg_elev)))
    tc

/-!
## Aggregate totals used by the testable properties
-/

/-- The grand total of the `count` column of `ward_tree_counts.csv`:
the sum over all wards of the per-(ward, tree-type) counts. -/
def totalTreeCount (trees : List Tree) (wards : List Ward) : Nat :=
  ((treeCounts trees wards).map (fun r => r.2)).sum

/-- The direct recount the spec compares against: the number of tree
points that fall within the union of all ward polygons (each point
counted once). -/
def treesInUnion (trees : List Tree) (wards : List Ward) : Nat :=
  (trees.filter (fun t => wards.any (fun w => within t.geometry w.geometry))).length

/-!
## JSON serialization of `tree_dist` (line 187)

```python
wards["tree_dist"] = wards["ward_id"].apply(lambda wid: json.dumps(ward_tree_dict.get(wid, \x7b\x7d)))
```

`json.dumps` on a `str → int` dict with the default separators prints
`\x7b"k1": v1, "k2": v2\x7d`.  Keys made of printable ASCII characters
other than the double quote and the backslash are emitted verbatim
(anything else would be escaped, which the serializer here does not
model — the round-trip theorems therefore assume such plain keys).
`parseObject` models `json.loads` on exactly this grammar.
-/

/-- Fuel-bounded digit rendering; any `fuel > n` gives the decimal
digits of `n` (structural recursion keeps it kernel-evaluable). -/
def natDigitsAux : Nat → Nat → List Char
  | 0, _ => []
  | fuel + 1, n =>
    if n < 10 then [Nat.digitChar n]
    else natDigitsAux fuel (n / 10) ++ [Nat.digitChar (n % 10)]

/-- The decimal digit characters of a natural number (the rendering
`json.dumps` uses for non-negative integers). -/
def natDigits (n : Nat) : List Char := natDigitsAux (n + 1) n

/-- The numeric value of a decimal digit character. -/
def digitVal (c : Char) : Nat := c.toNat - 48

/-- One serialized entry: `"key": value`. -/
def dumpEntry (kv : String × Nat) : List Char :=
  '"' :: kv.1.data ++ '"' :: ':' :: ' ' :: natDigits kv.2

/-- The comma-and-space separated entry list of a serialized object. -/
def dumpEntries : List (String × Nat) → List Char
  | [] => []
  | [kv] => dumpEntry kv
  | kv :: rest => dumpEntry kv ++ ',' :: ' ' :: dumpEntries rest

/-- `json.dumps` of a `str → int` mapping with plain keys. -/
def jsonDumps (d : List (String × Nat)) : String :=
  String.mk ('\x7b' :: (dumpEntries d ++ ['\x7d']))

/-- Scan a serialized key up to its closing double quote. -/
def scanKey : List Char → Option (List Char × List Char)
  | [] => none
  | c :: cs =>
    if c = '"' then some ([], cs)
    else (scanKey cs).map (fun p => (c :: p.1, p.2))

/-- Accumulate the value of a maximal run of leading digits. -/
def scanDigits (acc : Nat) : List Char → Nat × List Char
  | [] => (acc, [])
  | c :: cs => if c.isDigit then scanDigits (acc * 10 + digitVal c) cs else (acc, c :: cs)

/-- Scan a non-negative decimal integer (at least one digit). -/
def scanNum : List Char → Option (Nat × List Char)
  | [] => none
  | c :: cs => if c.isDigit then some (scanDigits (digitVal c) cs) else none

/-- Parse the `"key": value` entries of a serialized object, up to and
including the closing brace.  `fuel` bounds the number of separators
consumed (any fuel at least the entry count works). -/
def parseEntries : Nat → List Char → Option (List (String × Nat))
  | _, [] => none
  | fuel, c :: cs =>
    if c = '"' then
      match scanKey cs with
      | none => none
      | some (k, rest) =>
        match rest with
        | ':' :: ' ' :: rest2 =>
          match scanNum rest2 with
          | none => none
          | some (v, rest3) =>
            match rest3 with
            | ',' :: ' ' :: rest4 =>
              match fuel with
              | 0 => none
              | fuel' + 1 =>
                (parseEntries fuel' rest4).map (fun l => (String.mk k, v) :: l)
            | [d] => if d = '\x7d' then some [(String.mk k, v)] else none
            | _ => none
        | _ => none
    else none

/-- `json.loads` on the object grammar produced by `jsonDumps`. -/
def parseObject (s : String) : Option (List (String × Nat)) :=
  match s.data with
  | [] => none
  | c :: cs =>
    if c = '\x7b' then
      if cs = ['\x7d'] then some []
      else parseEntries cs.length cs
    else none

/-- A character `json.dumps` emits verbatim inside a key: printable
ASCII, not the double quote, not the backslash. -/
def plainKeyChar (c : Char) : Prop :=
  32 ≤ c.toNat ∧ c.toNat ≤ 126 ∧ c ≠ '"' ∧ c ≠ '\\'

/-- A key string `json.dumps` emits verbatim. -/
def plainKey (s : String) : Prop := ∀ c ∈ s.data, plainKeyChar c

instance (c : Char) : Decidable (plainKeyChar c) := by
  unfold plainKeyChar
  infer_instance

instance (s : String) : Decidable (plainKey s) := by
  unfold plainKey
  infer_instance

/-!
## Concrete sample inputs for counterexamples and witnesses
-/

/-- A ward layer whose `KGISWardNo` column carries a duplicated value. -/
def dupWardLayer : WardLayer :=
  WardLayer.mk "EPSG:32643" (some [5, 5]) none [Rect.mk 0 0 1 1, Rect.mk 2 0 3 1]

/-- A ward layer using the row-order `ward_id` fallback. -/
def fallbackWardLayer : WardLayer :=
  WardLayer.mk "EPSG:4326" none none [Rect.mk 0 0 1 1, Rect.mk 2 0 3 1]

/-- A readable ward boundary file with zero features. -/
def emptyWardLayer : WardLayer := WardLayer.mk "EPSG:4326" none none []

/-- A tree census file whose `TreeName` column exists but whose single
feature carries the empty string as its species name. -/
def emptySpeciesLayer : TreeLayer :=
  TreeLayer.mk "EPSG:4326" (some [some ""]) none [Pt.mk 1 1]

/-- Two overlapping ward polygons (their interiors share `2 < x < 4`). -/
def wardA : Ward := Ward.mk 1 "A" (Rect.mk 0 0 4 4)

/-- See `wardA`. -/
def wardB : Ward := Ward.mk 2 "B" (Rect.mk 2 0 6 4)

/-- A tree point lying within both `wardA` and `wardB`. -/
def overlapTree : Tree := Tree.mk "mango" (Pt.mk 3 3)

/-- A ward disjoint from `wardA`. -/
def wardC : Ward := Ward.mk 3 "C" (Rect.mk 10 0 14 4)

/-- A tree within `wardA` only. -/
def treeInA : Tree := Tree.mk "neem" (Pt.mk 1 1)

/-- A tree on `wardA`'s boundary (`x = 0`): not within any ward. -/
def boundaryTree : Tree := Tree.mk "ash" (Pt.mk 0 2)

/-- A tree outside every ward. -/
def treeOutside : Tree := Tree.mk "mango" (Pt.mk 100 100)

/-- Three trees within `wardA`: two mangoes and one neem. -/
def demoTrees : List Tree :=
  [Tree.mk "mango" (Pt.mk 1 1), Tree.mk "neem" (Pt.mk 2 2), Tree.mk "mango" (Pt.mk 3 3)]

/-- A school point within `wardA`. -/
def schoolInA : RawSchool := RawSchool.mk "Point" (Pt.mk 1 2)

/-- A polygon-typed school record located over `wardA` (dropped by the
geometry filter). -/
def schoolPolyInA : RawSchool := RawSchool.mk "Polygon" (Pt.mk 2 2)

/-- A school point outside every ward. -/
def schoolOutside : RawSchool := RawSchool.mk "Point" (Pt.mk 50 50)

/-- A parseable tree census layer. -/
def goodTreeLayer : TreeLayer :=
  TreeLayer.mk "EPSG:32643" (some [some " Mango  ", none]) none [Pt.mk 1 1, Pt.mk 2 2]

/-- A tree-file list with one missing file, one unparseable file and one
good file. -/
def demoTreeFiles : List TreeFile :=
  [TreeFile.mk false none, TreeFile.mk true none, TreeFile.mk true (some goodTreeLayer)]

/-!
## Supporting lemmas
-/

theorem groupSizes_map_sum {κ : Type} [DecidableEq κ] (keys : List κ) :
    ((groupSizes keys).map (fun r => r.2)).sum = keys.length := by
  have h := List.sum_map_count_dedup_eq_length keys
  simpa [groupSizes, List.map_map, Function.comp] using h

theorem mem_groupSizes_pos {κ : Type} [DecidableEq κ] (keys : List κ)
    (r : κ × Nat) (h : r ∈ groupSizes keys) : 1 ≤ r.2 := by
  obtain ⟨k, hk, rfl⟩ := List.mem_map.1 h
  have : k ∈ keys := List.mem_dedup.1 hk
  have := List.count_pos_iff.2 this
  omega

theorem find_map_pair {κ β : Type} [DecidableEq κ] (l : List κ) (f : κ → β) (k : κ) :
    ((l.map (fun x => (x, f x))).find? (fun r => r.1 = k)) =
      if k ∈ l then some (k, f k) else none := by
  induction l with
  | nil => simp
  | cons a t ih =>
    by_cases h : a = k
    · subst h
      simp [List.find?]
    · simp only [List.map_cons, List.find?, List.mem_cons]
      simp [h, ih, Ne.symm h]

theorem numSchools_groupSizes (keys : List Int) (wid : Int) :
    numSchools (groupSizes keys) wid = keys.count wid := by
  unfold numSchools groupSizes
  rw [find_map_pair]
  by_cases h : wid ∈ keys
  · simp [h]
  · simp [h, List.count_eq_zero.2 h]

theorem matchingWards_cons (a : Ward) (t : List Ward) (p : Pt) :
    matchingWards (a :: t) p =
      if within p a.geometry then a.ward_id :: matchingWards t p
      else matchingWards t p := by
  simp only [matchingWards, List.filter_cons]
  split <;> simp

theorem matchingWards_subset (wards : List Ward) (p : Pt) :
    ∀ i ∈ matchingWards wards p, i ∈ wards.map Ward.ward_id := by
  intro i hi
  obtain ⟨w, hw, rfl⟩ := List.mem_map.1 hi
  exact List.mem_map.2 ⟨w, (List.mem_filter.1 hw).1, rfl⟩

theorem mem_matchingWards_of_within (wards : List Ward) (w : Ward) (hw : w ∈ wards)
    (p : Pt) (h : within p w.geometry = true) : w.ward_id ∈ matchingWards wards p :=
  List.mem_map.2 ⟨w, List.mem_filter.2 ⟨hw, h⟩, rfl⟩

theorem count_matchingWards (wards : List Ward)
    (h : (wards.map Ward.ward_id).Nodup) (w : Ward) (hw : w ∈ wards) (p : Pt) :
    (matchingWards wards p).count w.ward_id =
      if within p w.geometry then 1 else 0 := by
  induction wards with
  | nil => cases hw
  | cons a t ih =>
    rw [List.map_cons, List.nodup_cons] at h
    obtain ⟨ha, ht⟩ := h
    rw [matchingWards_cons]
    rcases List.mem_cons.1 hw with rfl | hw'
    · have hzero : (matchingWards t p).count w.ward_id = 0 := by
        rw [List.count_eq_zero]
        exact fun hmem => ha (matchingWards_subset t p _ hmem)
      cases hwa : within p w.geometry <;> simp [hwa, hzero]
    · have hne : a.ward_id ≠ w.ward_id := by
        intro heq
        exact ha (heq ▸ List.mem_map.2 ⟨w, hw', rfl⟩)
      cases hwa : within p a.geometry <;>
        simp [hwa, ih ht hw', List.count_cons, hne, Ne.symm hne]

theorem assignedRows_append {α : Type} (l1 l2 : List (α × Option Int)) :
    assignedRows (l1 ++ l2) = assignedRows l1 ++ assignedRows l2 := by
  simp [assignedRows, List.filterMap_append]

theorem assignedRows_sjoin_cons {α : Type} (geomOf : α → Pt) (a : α)
    (rows : List α) (wards : List Ward) :
    assignedRows (sjoinWithin geomOf (a :: rows) wards) =
      (matchingWards wards (geomOf a)).map (fun i => (a, i)) ++
        assignedRows (sjoinWithin geomOf rows wards) := by
  show assignedRows ((match matchingWards wards (geomOf a) with
      | [] => [(a, none)]
      | ids => ids.map (fun i => (a, some i))) ++ sjoinWithin geomOf rows wards) = _
  rw [assignedRows_append]
  congr 1
  cases h : matchingWards wards (geomOf a) with
  | nil => simp [assignedRows]
  | cons i ids =>
    simp only [assignedRows, List.filterMap_map, Function.comp_def, Option.map_some]
    exact List.filterMap_eq_map _ ▸ rfl

theorem assignedRows_sjoin_length {α : Type} (geomOf : α → Pt)
    (rows : List α) (wards : List Ward) :
    (assignedRows (sjoinWithin geomOf rows wards)).length =
      (rows.map (fun a => (matchingWards wards (geomOf a)).length)).sum := by
  induction rows with
  | nil => rfl
  | cons a t ih => rw [assignedRows_sjoin_cons] ; simp [ih]

theorem count_assigned_ids {α : Type} (geomOf : α → Pt) (rows : List α)
    (wards : List Ward) (h : (wards.map Ward.ward_id).Nodup)
    (w : Ward) (hw : w ∈ wards) :
    ((assignedRows (sjoinWithin geomOf rows wards)).map (fun r => r.2)).count w.ward_id =
      (rows.filter (fun a => within (geomOf a) w.geometry)).length := by
  induction rows with
  | nil => rfl
  | cons a t ih =>
    rw [assignedRows_sjoin_cons, List.map_append, List.count_append, ih,
      List.map_map, List.filter_cons]
    have hcomp : ((fun r : α × Int => r.2) ∘ fun i => (a, i)) = id := rfl
    rw [hcomp, List.map_id, count_matchingWards wards h w hw]
    cases hwa : within (geomOf a) w.geometry
    · simp [hwa]
    · simp [hwa]
      omega

theorem any_within_iff (wards : List Ward) (p : Pt) :
    (wards.any (fun w => within p w.geometry)) = !(matchingWards wards p).isEmpty := by
  induction wards with
  | nil => rfl
  | cons a t ih =>
    rw [List.any_cons, matchingWards_cons]
    cases hwa : within p a.geometry <;> simp [hwa, ih]

theorem digitVal_digitChar (d : Nat) (h : d < 10) :
    digitVal (Nat.digitChar d) = d := by
  interval_cases d <;> rfl

theorem isDigit_digitChar (d : Nat) (h : d < 10) :
    (Nat.digitChar d).isDigit = true := by
  interval_cases d <;> rfl

theorem natDigitsAux_spec (fuel : Nat) : ∀ n, n < fuel →
    (∀ c ∈ natDigitsAux fuel n, c.isDigit = true) ∧ natDigitsAux fuel n ≠ [] ∧
      ∀ acc, (natDigitsAux fuel n).foldl (fun a c => a * 10 + digitVal c) acc =
        acc * 10 ^ (natDigitsAux fuel n).length + n := by
  induction fuel with
  | zero => omega
  | succ fuel ih =>
    intro n h
    by_cases h10 : n < 10
    · refine ⟨?_, ?_, ?_⟩ <;> simp [natDigitsAux, h10]
      · exact isDigit_digitChar n h10
      · exact digitVal_digitChar n h10
    · obtain ⟨hdig, hne, hfold⟩ := ih (n / 10) (by omega)
      refine ⟨?_, ?_, ?_⟩
      · intro c hc
        rw [natDigitsAux] at hc
        simp only [if_neg h10, List.mem_append, List.mem_singleton] at hc
        rcases hc with hc | rfl
        · exact hdig c hc
        · exact isDigit_digitChar _ (Nat.mod_lt n (by omega))
      · rw [natDigitsAux]
        simp [if_neg h10]
      · intro acc
        rw [natDigitsAux]
        simp only [if_neg h10, List.foldl_append, List.foldl_cons, List.foldl_nil,
          List.length_append, List.length_cons, List.length_nil]
        rw [hfold acc, digitVal_digitChar _ (Nat.mod_lt n (by omega)), pow_succ,
          ← mul_assoc]
        generalize acc * 10 ^ (natDigitsAux fuel (n / 10)).length = A
        omega

theorem natDigits_isDigit (n : Nat) : ∀ c ∈ natDigits n, c.isDigit = true :=
  (natDigitsAux_spec (n + 1) n (by omega)).1

theorem natDigits_ne_nil (n : Nat) : natDigits n ≠ [] :=
  (natDigitsAux_spec (n + 1) n (by omega)).2.1

theorem natDigits_foldl (n : Nat) (acc : Nat) :
    (natDigits n).foldl (fun a c => a * 10 + digitVal c) acc =
      acc * 10 ^ (natDigits n).length + n :=
  (natDigitsAux_spec (n + 1) n (by omega)).2.2 acc

theorem scanKey_append (k rest : List Char) (hk : ∀ c ∈ k, c ≠ '"') :
    scanKey (k ++ '"' :: rest) = some (k, rest) := by
  induction k with
  | nil => simp [scanKey]
  | cons c cs ih =>
    have hc : c ≠ '"' := hk c (List.mem_cons_self c cs)
    have ih' := ih (fun c' h' => hk c' (List.mem_cons_of_mem c h'))
    simp [scanKey, hc, ih']

theorem scanDigits_append (ds : List Char) (hds : ∀ c ∈ ds, c.isDigit = true) :
    ∀ acc (rest : List Char), (∀ c cs', rest = c :: cs' → c.isDigit = false) →
      scanDigits acc (ds ++ rest) = (ds.foldl (fun a c => a * 10 + digitVal c) acc, rest) := by
  induction ds with
  | nil =>
    intro acc rest hrest
    cases rest with
    | nil => rfl
    | cons c cs' => simp [scanDigits, hrest c cs' rfl]
  | cons c cs ih =>
    intro acc rest hrest
    have hc : c.isDigit = true := hds c (List.mem_cons_self c cs)
    have ih' := ih (fun c' h' => hds c' (List.mem_cons_of_mem c h'))
    simp [scanDigits, hc, ih' _ rest hrest]

theorem scanNum_natDigits (n : Nat) (rest : List Char)
    (hrest : ∀ c cs', rest = c :: cs' → c.isDigit = false) :
    scanNum (natDigits n ++ rest) = some (n, rest) := by
  cases hd : natDigits n with
  | nil => exact absurd hd (natDigits_ne_nil n)
  | cons c ds =>
    have hdig : ∀ c' ∈ natDigits n, c'.isDigit = true := natDigits_isDigit n
    rw [hd] at hdig
    have hc : c.isDigit = true := hdig c (List.mem_cons_self c ds)
    have hds : ∀ c' ∈ ds, c'.isDigit = true :=
      fun c' h' => hdig c' (List.mem_cons_of_mem c h')
    have hfold := natDigits_foldl n 0
    rw [hd] at hfold
    simp only [List.foldl_cons, Nat.zero_mul, Nat.zero_add] at hfold
    simp only [List.cons_append, scanNum, hc, if_pos]
    rw [scanDigits_append ds hds (digitVal c) rest hrest, hfold]

theorem parseEntries_dumpEntries (d : List (String × Nat)) (hne : d ≠ [])
    (hkeys : ∀ kv ∈ d, ∀ c ∈ kv.1.data, c ≠ '"') :
    ∀ fuel, d.length ≤ fuel + 1 →
      parseEntries fuel (dumpEntries d ++ ['\x7d']) = some d := by
  induction d with
  | nil => exact absurd rfl hne
  | cons kv rest ih =>
    intro fuel hfuel
    have hk : ∀ c ∈ kv.1.data, c ≠ '"' :=
      hkeys kv (List.mem_cons_self kv rest)
    cases rest with
    | nil =>
      have hshape : dumpEntries [kv] ++ ['\x7d'] =
          '"' :: (kv.1.data ++ '"' :: ':' :: ' ' :: (natDigits kv.2 ++ ['\x7d'])) := by
        simp [dumpEntries, dumpEntry]
      rw [hshape, parseEntries]
      simp only [if_pos rfl]
      rw [scanKey_append kv.1.data _ hk]
      simp only
      rw [scanNum_natDigits kv.2 ['\x7d'] (by intro c cs' h; cases h; rfl)]
      rfl
    | cons kv2 rest2 =>
      have hshape : dumpEntries (kv :: kv2 :: rest2) ++ ['\x7d'] =
          '"' :: (kv.1.data ++ '"' :: ':' :: ' ' ::
            (natDigits kv.2 ++ ',' :: ' ' :: (dumpEntries (kv2 :: rest2) ++ ['\x7d']))) := by
        simp [dumpEntries, dumpEntry]
      obtain ⟨fuel', rfl⟩ : ∃ fuel', fuel = fuel' + 1 := by
        cases fuel
        · simp at hfuel
        · exact ⟨_, rfl⟩
      rw [hshape, parseEntries]
      simp only [if_pos rfl]
      rw [scanKey_append kv.1.data _ hk]
      simp only
      rw [scanNum_natDigits kv.2 _ (by intro c cs' h; cases h; rfl)]
      simp only
      rw [ih (by simp) (fun kv' h' => hkeys kv' (List.mem_cons_of_mem kv h')) fuel'
        (by simpa using Nat.le_of_succ_le_succ hfuel)]
      rfl

theorem dumpEntries_length_ge (d : List (String × Nat)) :
    d.length ≤ (dumpEntries d).length := by
  induction d with
  | nil => simp [dumpEntries]
  | cons kv rest ih =>
    cases rest with
    | nil => simp [dumpEntries, dumpEntry]
    | cons kv2 rest2 =>
      have : 1 ≤ (dumpEntry kv).length := by simp [dumpEntry]
      simp only [dumpEntries, List.length_append, List.length_cons]
      simp only [List.length_cons] at ih ⊢
      omega

theorem dumpEntries_cons_shape (kv : String × Nat) (rest : List (String × Nat)) :
    ∃ t, dumpEntries (kv :: rest) = '"' :: t := by
  cases rest <;> exact ⟨_, rfl⟩

theorem parseObject_jsonDumps (d : List (String × Nat))
    (hkeys : ∀ kv ∈ d, plainKey kv.1) :
    parseObject (jsonDumps d) = some d := by
  cases d with
  | nil => rfl
  | cons kv rest =>
    have hq : ∀ kv' ∈ kv :: rest, ∀ c ∈ kv'.1.data, c ≠ '"' :=
      fun kv' h c hc => (hkeys kv' h c hc).2.2.1
    obtain ⟨t, ht⟩ := dumpEntries_cons_shape kv rest
    have hneq : dumpEntries (kv :: rest) ++ ['\x7d'] ≠ ['\x7d'] := by
      rw [ht]
      intro hcontr
      have := congrArg List.length hcontr
      simp at this
    show parseObject (String.mk ('\x7b' :: (dumpEntries (kv :: rest) ++ ['\x7d']))) = _
    rw [parseObject]
    simp only [if_pos rfl, if_neg hneq]
    exact parseEntries_dumpEntries (kv :: rest) (by simp) hq _
      (by
        have h1 := dumpEntries_length_ge (kv :: rest)
        simp only [List.length_append, List.length_cons] at h1 ⊢
        omega)

/-!
## Claim theorems
-/

/-- C1: per ward, the average elevation is absent (`none`) exactly when
the masking step threw or no valid cell remains after nodata exclusion;
otherwise it is the mean of the valid cells; nodata-valued cells never
enter the mean; the computation never aborts (it is a total function
into `Option ℚ`). -/
theorem C1_avg_elev_absent_iff (nodata : Option ℚ) (m : Option (List ℚ)) :
    (avgElev nodata m = none ↔
      m = none ∨ ∃ band, m = some band ∧ validCells nodata band = []) ∧
    (∀ band, m = some band → validCells nodata band ≠ [] →
      avgElev nodata m =
        some ((validCells nodata band).sum / ((validCells nodata band).length : ℚ))) ∧
    (∀ nd band, nodata = some nd → nd ∉ validCells nodata band) := by
  refine ⟨?_, ?_, ?_⟩
  · cases m with
    | none => simp [avgElev]
    | some band =>
      by_cases h : validCells nodata band = []
      · simp [avgElev, h]
      · simp [avgElev, h]
  · intro band hm hne
    subst hm
    simp [avgElev, hne]
  · intro nd band hnd
    subst hnd
    simp [validCells, List.mem_filter]

/-- Witness for C1 at a concrete band: the nodata sentinel 9999 is
excluded and the mean of the remaining cells 600 and 700 is 650. -/
theorem C1_avg_elev_witness :
    validCells (some 9999) [9999, 600, 700] ≠ [] ∧
    avgElev (some 9999) (some [9999, 600, 700]) = some 650 := by
  have hvc : validCells (some 9999) [(9999 : ℚ), 600, 700] = [600, 700] := by
    norm_num [validCells]
  have hne : validCells (some 9999) [(9999 : ℚ), 600, 700] ≠ [] := by
    rw [hvc]
    simp
  refine ⟨hne, ?_⟩
  have h := (C1_avg_elev_absent_iff (some 9999) (some [9999, 600, 700])).2.1
    [9999, 600, 700] rfl hne
  rw [h, hvc]
  norm_num

/-- C5 counterexample: a tree feature whose species field is the empty
string is not recorded under `"unknown"` — its `tree_type` is the empty
string, because the `"unknown"` fallback in the code is file-level
(applied only when neither species column exists), not per-feature. -/
theorem C5_counterexample :
    normalizeTreeTypes emptySpeciesLayer = [""] ∧ ("" : String) ≠ "unknown" ∧
    normalizeTreeTypes emptySpeciesLayer ≠ ["unknown"] := by
  refine ⟨rfl, by decide, by decide⟩

/-- C5 amended: the `"unknown"` fallback is per file, not per feature —
every feature of a layer with neither species column gets `"unknown"`;
when a species column exists, each feature's `tree_type` is the trimmed
string rendering of its cell (the empty string stays empty, a missing
value renders as `"nan"`). -/
theorem C5_tree_type_amended (l : TreeLayer) :
    (l.treeNameCol = none → l.treeTypeCol = none →
      normalizeTreeTypes l = l.geoms.map (fun _ => "unknown")) ∧
    (∀ col, l.treeNameCol = some col →
      normalizeTreeTypes l = col.map (fun v => strip (cellToStr v))) ∧
    (l.treeNameCol = none → ∀ col, l.treeTypeCol = some col →
      normalizeTreeTypes l = col.map (fun v => strip (cellToStr v))) := by
  refine ⟨?_, ?_, ?_⟩ <;> intros <;> simp_all [normalizeTreeTypes]

/-- Witness for C5 at the empty-species layer: the `TreeName` branch is
taken and the empty cell is stripped verbatim. -/
theorem C5_tree_type_witness :
    emptySpeciesLayer.treeNameCol = some [some ""] ∧
    normalizeTreeTypes emptySpeciesLayer =
      [some ""].map (fun v => strip (cellToStr v)) :=
  ⟨rfl, (C5_tree_type_amended emptySpeciesLayer).2.1 [some ""] rfl⟩

/-- C6 counterexample: a readable ward file with zero features does not
fail — the loader returns an empty ward set, contradicting "fails with
`LoadError` if and only if the file is unreadable or contains zero
features". -/
theorem C6_counterexample :
    emptyWardLayer.geoms = [] ∧
    loadWards (fun _ p => p) (some emptyWardLayer) = .ok [] ∧
    loadWards (fun _ p => p) (some emptyWardLayer) ≠ .error "LoadError" :=
  ⟨rfl, rfl, by simp [loadWards]⟩

/-- C6 amended: ward loading fails (the read exception propagates,
there being no zero-feature check) if and only if the file is
unreadable; every readable layer — a zero-feature one included — yields
the normalized ward set with canonical ids, names and WGS84 geometry. -/
theorem C6_load_amended (reproj : String → Pt → Pt) (raw : Option WardLayer) :
    (loadWards reproj raw = .error "LoadError" ↔ raw = none) ∧
    (∀ layer, raw = some layer →
      loadWards reproj raw = .ok (normalizeWards reproj layer)) := by
  cases raw <;> simp [loadWards]

/-- Witness for C6 at a concrete readable layer. -/
theorem C6_load_witness :
    loadWards (fun _ p => p) (some fallbackWardLayer) =
      .ok (normalizeWards (fun _ p => p) fallbackWardLayer) :=
  (C6_load_amended (fun _ p => p) (some fallbackWardLayer)).2 fallbackWardLayer rfl

/-- C9 counterexample: a ward layer whose `KGISWardNo` column holds a
duplicated value produces duplicated `ward_id`s — the source-field path
enforces no uniqueness. -/
theorem C9_counterexample :
    dupWardLayer.wardNoCol = some [5, 5] ∧
    ¬ (assignWardIds dupWardLayer).Nodup := by
  constructor
  · rfl
  · decide

/-- C9 amended: under the row-order fallback the produced `ward_id`s
are always unique; when a ward-number source field exists, `ward_id`
is exactly that column, so the ids are unique precisely when the source
values are pairwise distinct. -/
theorem C9_ward_id_amended (layer : WardLayer) :
    (layer.wardNoCol = none → (assignWardIds layer).Nodup) ∧
    (∀ col, layer.wardNoCol = some col →
      assignWardIds layer = col ∧ ((assignWardIds layer).Nodup ↔ col.Nodup)) := by
  constructor
  · intro h
    have hinj : Function.Injective (fun i : ℕ => Int.ofNat i + 1) := by
      intro a b hab
      simpa [Int.ofNat_inj] using hab
    unfold assignWardIds
    rw [h]
    exact (List.nodup_range layer.geoms.length).map hinj
  · intro col h
    simp [assignWardIds, h]

/-- Witness for C9 on the fallback path. -/
theorem C9_ward_id_witness :
    fallbackWardLayer.wardNoCol = none ∧
    (assignWardIds fallbackWardLayer).Nodup :=
  ⟨rfl, (C9_ward_id_amended fallbackWardLayer).1 rfl⟩

/-- C10: every row of `ward_tree_counts.csv` has `count ≥ 1`, because
rows arise only from grouping actually-assigned tree points. -/
theorem C10_count_positive (trees : List Tree) (wards : List Ward)
    (row : (Int × String) × Nat) (h : row ∈ treeCounts trees wards) :
    1 ≤ row.2 :=
  mem_groupSizes_pos _ row h

/-- Witness for C10 at a concrete row of a concrete table. -/
theorem C10_count_positive_witness :
    ((1, "mango"), 2) ∈ treeCounts demoTrees [wardA] ∧
    1 ≤ (((1, "mango"), 2) : (Int × String) × Nat).2 :=
  ⟨by decide, C10_count_positive demoTrees [wardA] ((1, "mango"), 2) (by decide)⟩

/-- C2 counterexample: with two overlapping ward polygons, a tree point
within both is joined once per containing ward, so the summed per-ward
counts (2) exceed the number of tree points within the union of all
wards (1): the claimed equality fails as stated. -/
theorem C2_counterexample :
    totalTreeCount [overlapTree] [wardA, wardB] = 2 ∧
    treesInUnion [overlapTree] [wardA, wardB] = 1 ∧
    totalTreeCount [overlapTree] [wardA, wardB] ≠
      treesInUnion [overlapTree] [wardA, wardB] := by decide

/-- C2 amended: points are assigned only to wards whose polygon
interior contains them, unmatched points are excluded from every
aggregate, and — provided no tree point lies within more than one ward
polygon — the summed per-(ward, tree-type) counts equal the number of
tree points within the union of all ward polygons. -/
theorem C2_sum_amended (trees : List Tree) (wards : List Ward)
    (hdisj : ∀ t ∈ trees, (matchingWards wards t.geometry).length ≤ 1) :
    totalTreeCount trees wards = treesInUnion trees wards ∧
    (∀ (t : Tree) (i : Int), (t, some i) ∈ sjoinWithin Tree.geometry trees wards →
      ∃ w ∈ wards, w.ward_id = i ∧ within t.geometry w.geometry = true) ∧
    totalTreeCount trees wards =
      (assignedRows (sjoinWithin Tree.geometry trees wards)).length := by
  have hlen : totalTreeCount trees wards =
      (assignedRows (sjoinWithin Tree.geometry trees wards)).length := by
    unfold totalTreeCount treeCounts
    rw [groupSizes_map_sum, List.length_map]
  refine ⟨?_, ?_, hlen⟩
  · rw [hlen, assignedRows_sjoin_length]
    clear hlen
    induction trees with
    | nil => rfl
    | cons a t ih =>
      have ha := hdisj a (List.mem_cons_self a t)
      have ih' := ih (fun x hx => hdisj x (List.mem_cons_of_mem a hx))
      simp only [List.map_cons, List.sum_cons, treesInUnion, List.filter_cons,
        any_within_iff] at ih' ⊢
      cases hm : matchingWards wards a.geometry with
      | nil => simpa [hm] using ih'
      | cons i ids =>
        have hids : ids = [] := by
          rw [hm] at ha
          simpa using ha
        subst hids
        simp [hm]
        omega
  · intro t i hmem
    unfold sjoinWithin at hmem
    rw [List.mem_flatMap] at hmem
    obtain ⟨b, hb, hbranch⟩ := hmem
    cases hmatch : matchingWards wards b.geometry with
    | nil =>
      rw [hmatch] at hbranch
      simp at hbranch
    | cons j ids =>
      rw [hmatch] at hbranch
      rw [List.mem_map] at hbranch
      obtain ⟨i', hi', heq⟩ := hbranch
      rw [Prod.mk.injEq, Option.some_inj] at heq
      obtain ⟨rfl, rfl⟩ := heq
      have hin : i' ∈ matchingWards wards b.geometry := hmatch ▸ hi'
      obtain ⟨w, hw, rfl⟩ := List.mem_map.1 hin
      exact ⟨w, (List.mem_filter.1 hw).1, rfl, (List.mem_filter.1 hw).2⟩

/-- Witness for C2 amended: disjoint wards, one interior tree, one
boundary-touching tree, one outside tree — total equals the recount. -/
theorem C2_sum_witness :
    (∀ t ∈ [treeInA, boundaryTree, treeOutside],
      (matchingWards [wardA, wardC] t.geometry).length ≤ 1) ∧
    totalTreeCount [treeInA, boundaryTree, treeOutside] [wardA, wardC] =
      treesInUnion [treeInA, boundaryTree, treeOutside] [wardA, wardC] :=
  ⟨by decide, (C2_sum_amended [treeInA, boundaryTree, treeOutside]
    [wardA, wardC] (by decide)).1⟩

/-- C3: with unique ward ids (the spec's data-model invariant), each
ward's `num_schools` equals the number of geometry-filtered school
points strictly within that ward's full-resolution polygon; a ward
matching no school gets the back-filled 0, never a missing value. -/
theorem C3_num_schools (wards : List Ward) (rawSchools : List RawSchool)
    (h : (wards.map Ward.ward_id).Nodup) (w : Ward) (hw : w ∈ wards) :
    numSchools (schoolCounts (filterSchools rawSchools) wards) w.ward_id =
      ((filterSchools rawSchools).filter
        (fun s => within s.geometry w.geometry)).length := by
  unfold schoolCounts
  rw [numSchools_groupSizes]
  exact count_assigned_ids RawSchool.geometry (filterSchools rawSchools) wards h w hw

/-- Witness for C3: one point school inside `wardA`, one polygon school
record (dropped by the filter), one point school outside. -/
theorem C3_num_schools_witness :
    (([wardA, wardC] : List Ward).map Ward.ward_id).Nodup ∧
    numSchools (schoolCounts (filterSchools [schoolInA, schoolPolyInA, schoolOutside])
      [wardA, wardC]) wardA.ward_id = 1 := by
  refine ⟨by decide, ?_⟩
  rw [C3_num_schools [wardA, wardC] [schoolInA, schoolPolyInA, schoolOutside]
    (by decide) wardA (by decide)]
  decide

/-- C4: decoding a ward's serialized `tree_dist` JSON string and
summing its values equals the sum of that ward's `count` entries in the
ward-by-tree-type table (keys assumed plain, as `json.dumps` would
escape others). -/
theorem C4_tree_dist_roundtrip (trees : List Tree) (wards : List Ward) (wid : Int)
    (hkeys : ∀ kv ∈ wardTreeDict (treeCounts trees wards) wid, plainKey kv.1) :
    ∃ d, parseObject (jsonDumps (wardTreeDict (treeCounts trees wards) wid)) = some d ∧
      (d.map (fun kv => kv.2)).sum =
        (((treeCounts trees wards).filter (fun r => r.1.1 = wid)).map
          (fun r => r.2)).sum := by
  refine ⟨wardTreeDict (treeCounts trees wards) wid,
    parseObject_jsonDumps _ hkeys, ?_⟩
  simp [wardTreeDict, List.map_map, Function.comp_def]

/-- Witness for C4 at a concrete table: two mangoes and a neem in one
ward; the decoded sum and the table sum are both 3. -/
theorem C4_tree_dist_witness :
    (∀ kv ∈ wardTreeDict (treeCounts demoTrees [wardA]) 1, plainKey kv.1) ∧
    ∃ d, parseObject (jsonDumps (wardTreeDict (treeCounts demoTrees [wardA]) 1)) = some d ∧
      (d.map (fun kv => kv.2)).sum =
        (((treeCounts demoTrees [wardA]).filter (fun r => r.1.1 = 1)).map
          (fun r => r.2)).sum :=
  ⟨by decide, C4_tree_dist_roundtrip demoTrees [wardA] 1 (by decide)⟩

/-- C7: missing tree files are skipped, unparseable ones are skipped
non-fatally, loading fails exactly when zero files loaded successfully,
and on success the result is the in-order concatenation of the
normalized layers, each reprojected from its own CRS to EPSG:4326. -/
theorem C7_tree_load (reproj : String → Pt → Pt) (files : List TreeFile) :
    (loadTrees reproj files = .error "LoadError" ↔
      ∀ f ∈ files, f.onDisk = false ∨ f.content = none) ∧
    ((∃ f ∈ files, f.onDisk = true ∧ f.content ≠ none) →
      loadTrees reproj files = .ok (loadTreeLayers reproj files).flatten) ∧
    (∀ (f : TreeFile) fs, f.onDisk = false ∨ f.content = none →
      loadTreeLayers reproj (f :: fs) = loadTreeLayers reproj fs) ∧
    (∀ (l : TreeLayer) (f : TreeFile) fs, f.onDisk = true → f.content = some l →
      loadTreeLayers reproj (f :: fs) =
        normalizeTreeLayer reproj l :: loadTreeLayers reproj fs) := by
  have hnil : loadTreeLayers reproj files = [] ↔
      ∀ f ∈ files, f.onDisk = false ∨ f.content = none := by
    unfold loadTreeLayers
    rw [List.filterMap_eq_nil_iff]
    refine forall₂_congr (fun f _ => ?_)
    cases hd : f.onDisk <;> cases hc : f.content <;> simp [hd, hc]
  refine ⟨?_, ?_, ?_, ?_⟩
  · rw [← hnil]
    unfold loadTrees
    cases hE : loadTreeLayers reproj files with
    | nil => simp
    | cons l ls => simp
  · rintro ⟨f, hf, hd, hc⟩
    obtain ⟨l, hl⟩ := Option.ne_none_iff_exists'.1 hc
    have hmem : normalizeTreeLayer reproj l ∈ loadTreeLayers reproj files :=
      List.mem_filterMap.2 ⟨f, hf, by simp [hd, hl]⟩
    unfold loadTrees
    cases hE : loadTreeLayers reproj files with
    | nil =>
      rw [hE] at hmem
      cases hmem
    | cons a as => simp
  · intro f fs h
    unfold loadTreeLayers
    rw [List.filterMap_cons]
    rcases h with h | h
    · simp [h]
    · cases hd : f.onDisk <;> simp [h]
  · intro l f fs hd hc
    unfold loadTreeLayers
    rw [List.filterMap_cons]
    simp [hd, hc]

/-- Witness for C7: of three files one is missing, one unparseable and
one good; the load succeeds with the flattened good layer. -/
theorem C7_tree_load_witness :
    (∃ f ∈ demoTreeFiles, f.onDisk = true ∧ f.content ≠ none) ∧
    loadTrees (fun _ p => p) demoTreeFiles =
      .ok (loadTreeLayers (fun _ p => p) demoTreeFiles).flatten :=
  ⟨by decide, (C7_tree_load (fun _ p => p) demoTreeFiles).2.1 (by decide)⟩

/-- C8: simplification touches only the ward geometry column and only
after aggregation: the exported tree and school point layers are the
unsimplified inputs, and every exported ward carries the attributes
computed against the full-resolution ward polygons, with only its
geometry passed through `simplify`; the per-(ward, tree-type) table is
likewise computed from full-resolution geometry. -/
theorem C8_simplify_after_aggregation (simplify : Rect → Rect) (nodata : Option ℚ)
    (cells : Ward → Option (List ℚ)) (wards : List Ward) (trees : List Tree)
    (rawSchools : List RawSchool) :
    (pipelineOutputs simplify nodata cells wards trees rawSchools).treesGeojson
      = trees ∧
    (pipelineOutputs simplify nodata cells wards trees rawSchools).schoolsGeojson
      = filterSchools rawSchools ∧
    (pipelineOutputs simplify nodata cells wards trees rawSchools).wardsGeojson =
      wards.map (fun w => OutWard.mk w.ward_id w.ward_name
        (numSchools (schoolCounts (filterSchools rawSchools) wards) w.ward_id)
        (lookupElev (avgElevs nodata cells wards) w.ward_id)
        (wardTreeDict (treeCounts trees wards) w.ward_id)
        (simplify w.geometry)) ∧
    (pipelineOutputs simplify nodata cells wards trees rawSchools).wardTreeCountsCsv
      = treeCounts trees wards := by
  refine ⟨rfl, rfl, ?_, rfl⟩
  simp [pipelineOutputs, simplifyWards, attachStats, List.map_map, Function.comp_def]

end Bengaluru
